import Mathlib

/-!
Shallow embedding of the listing-extraction engine of the cronJobs repository
(src/fanngJobDbUpload/Crawlers/Apple.py and src/fanngJobDbUpload/Crawlers/Meta.py).

Side-effecting accessor calls (Selenium queries) are modelled as oracle
functions handed to each definition: a query that misses or throws is the
oracle returning none (or false, or the empty list), matching the
try/except-continue structure of the source.
-/

/-- Model of the Python str.strip method: drop whitespace from both ends. -/
def pyStrip (s : String) : String :=
  String.mk (((s.toList.dropWhile Char.isWhitespace).reverse.dropWhile Char.isWhitespace).reverse)

/-- Split a character list at every separator character (kept as empty pieces). -/
def splitChars (p : Char → Bool) : List Char → List (List Char)
  | [] => [[]]
  | x :: xs =>
    if p x then [] :: splitChars p xs
    else
      match splitChars p xs with
      | [] => [[x]]
      | y :: ys => (x :: y) :: ys

/-- Model of the Python no-argument str.split: split on whitespace, dropping empty pieces. -/
def pySplitWs (s : String) : List String :=
  ((splitChars Char.isWhitespace s.toList).map String.mk).filter (fun x => x ≠ "")

/-- Model of the Python str.split with a one-character separator (keeps empty pieces). -/
def pySplitOn (s : String) (c : Char) : List String :=
  (splitChars (fun x => x = c) s.toList).map String.mk

/-- Model of the Python str.startswith. -/
def pyStartsWith (s p : String) : Bool :=
  p.toList.isPrefixOf s.toList

/-- Model of the Python membership test of a character in a string. -/
def pyContainsChar (s : String) (c : Char) : Bool :=
  s.toList.contains c

/-- Model of the Python str.isspace method: nonempty and every character is whitespace. -/
def pyIsSpaceStr (s : String) : Bool :=
  !s.toList.isEmpty && s.toList.all Char.isWhitespace

/-- A listing element (one candidate job card) as seen through the accessor:
`q sel` is the stripped-source text of `find_element(By.CSS_SELECTOR, sel).text`
on this element (`none` when the query misses or throws), `href` is the
`get_attribute("href")` result (`none` when the attribute is absent), `texts`
are the raw texts of the `p, span, div` descendants in DOM order, and `err`
marks an element-level failure of the surrounding try block
(Apple.py line 125: any exception while parsing the element). -/
structure JobElem where
  q : String → Option String
  href : Option String
  texts : List String
  err : Bool

/-- Readiness-probe chain of Apple.py lines 47 to 57: try each probe selector in
order, stop at the first that appears; also count how many probes were tried. -/
def waitReady (probe : String → Bool) : List String → Bool × Nat
  | [] => (false, 0)
  | s :: rest =>
    if probe s then (true, 1)
    else
      let r := waitReady probe rest
      (r.1, r.2 + 1)

/-- Listing-container chain of Apple.py lines 74 to 79: the first selector that
returns any elements wins; also count how many selectors were queried. -/
def findListings (q : String → List JobElem) : List String → List JobElem × Nat
  | [] => ([], 0)
  | s :: rest =>
    let es := q s
    if es.isEmpty then
      let r := findListings q rest
      (r.1, r.2 + 1)
    else (es, 1)

/-- Title chain of Apple.py lines 90 to 98: for each selector, on a hit the
stripped text is assigned to the accumulator and the loop breaks only when it
is nonempty; a miss or throw continues. The second component counts query
invocations. -/
def resolveTitle (q : String → Option String) : List String → Option String → Option String × Nat
  | [], acc => (acc, 0)
  | s :: rest, acc =>
    match q s with
    | none =>
      let r := resolveTitle q rest acc
      (r.1, r.2 + 1)
    | some u =>
      let t := pyStrip u
      if t = "" then
        let r := resolveTitle q rest (some t)
        (r.1, r.2 + 1)
      else (some t, 1)

/-- Next-control chain of Apple.py lines 129 to 137: the first selector whose
query succeeds decides the answer from the disabled marker in the class list;
`q sel` is the class attribute of the found control (`none` when the query or
the attribute read throws). The second component counts query invocations. -/
def checkNextPage (q : String → Option String) : List String → Bool × Nat
  | [] => (false, 0)
  | s :: rest =>
    match q s with
    | some cls => (!((pySplitWs cls).contains "disabled"), 1)
    | none =>
      let r := checkNextPage q rest
      (r.1, r.2 + 1)

/-- Readiness-probe selectors, Apple.py lines 40 to 45. -/
def appleReadySelectors : List String :=
  ["div[role=\x27main\x27]", "section[role=\x27region\x27]", "a[href*=\x27/search/\x27]", "h3"]

/-- Listing-container selectors, Apple.py line 75. -/
def appleListingSelectors : List String :=
  ["a[href*=\x27/search/\x27]", "div[role=\x27listitem\x27]"]

/-- Title selectors, Apple.py line 91. -/
def appleTitleSelectors : List String :=
  ["h3", "h2", ".job-title", "[data-test=\x27job-title\x27]"]

/-- Next-control selectors, Apple.py line 131. -/
def appleNextSelectors : List String :=
  ["[aria-label=\x27Next page\x27]", ".pagination-next", "[data-test=\x27pagination-next\x27]"]

/-- The value of the Python title variable after the loop is falsy (None or the
empty string): the NOT_FOUND outcome of the title chain (Apple.py line 100). -/
def notFoundR : Option String → Bool
  | none => true
  | some t => t == ""

/-- One extracted job dictionary as built by Apple.py lines 116 to 123. -/
structure AppleRaw where
  title : String
  location : String
  team : String
  date : String
  id : String
  url : Option String
deriving DecidableEq

/-- Field extraction for one Apple listing element, Apple.py lines 83 to 127:
resolve the title chain; a falsy title skips the element (line 100); the id is
the last path segment of the href, or the sentinel when the href is absent
(line 104); team, location and date are positional picks from the nonempty
stripped descendant texts (lines 107 to 113); the record is appended under the
final title guard of line 115. An element-level exception (err) skips the
element. -/
def appleJobId (href : Option String) : String :=
  match href with
  | some u => (pySplitOn u '/').getLastD ""
  | none => "N/A"

def appleTexts (e : JobElem) : List String :=
  (e.texts.map pyStrip).filter (fun x => x ≠ "")

def extractApple (e : JobElem) : Option AppleRaw :=
  if e.err then none
  else
    match (resolveTitle e.q appleTitleSelectors none).1 with
    | none => none
    | some t =>
      if t = "" then none
      else if t ≠ "" ∧ pyIsSpaceStr t = false then
        some { title := t, location := (appleTexts e).getD 1 "N/A",
               team := (appleTexts e).getD 0 "N/A", date := (appleTexts e).getD 2 "N/A",
               id := appleJobId e.href, url := e.href }
      else none

/-- Concrete probe oracle for exercising the chains: only selector b succeeds. -/
def w1probe : String → Bool
  | "b" => true
  | _ => false

/-- Concrete listing element used by the chain witnesses. -/
def w1elem : JobElem :=
  { q := fun _ => none, href := none, texts := [], err := false }

/-- Concrete listing-query oracle: only selector b returns elements. -/
def w1ql : String → List JobElem
  | "b" => [w1elem]
  | _ => []

/-- Concrete text oracle: selector b yields a nonempty title, others miss. -/
def w1qt : String → Option String
  | "b" => some " Engineer "
  | _ => none

/-- Concrete next-control oracle: selector b finds a control with a class list. -/
def w1qn : String → Option String
  | "b" => some "next disabled"
  | _ => none

/-- One job dictionary built on the Meta card path, Meta.py lines 334 to 421
(the description-enrichment step of lines 430 to 459 mutates it afterwards and
may leave the description key absent; it is not part of the card record). -/
structure MetaJob where
  url : String
  id : String
  title : String
  location : String
  team : String
deriving DecidableEq

/-- A Meta job card as seen through the accessor: href is the card attribute,
innerHref the href of a nested anchor (lines 341 to 349), and `q sel` the text
of `card.find_element(By.CSS_SELECTOR, sel)` (none when the query throws). -/
structure MetaCard where
  href : Option String
  innerHref : Option String
  q : String → Option String

/-- Field chain on the Meta card path (Meta.py lines 373 to 381 and the
analogous location and team loops): a hit with nonempty stripped text breaks,
anything else continues; exhaustion leaves the field unset. -/
def metaCardChain (q : String → Option String) : List String → Option String
  | [] => none
  | s :: rest =>
    match q s with
    | some u =>
      let t := pyStrip u
      if t = "" then metaCardChain q rest else some t
    | none => metaCardChain q rest

/-- Title selectors of the Meta card path, Meta.py lines 365 to 370. -/
def metaCardTitleSelectors : List String :=
  ["div[data-testid=\"job-title\"]", "h3", "h2", "h4", ".job-title", "div[class*=\"title\"]"]

/-- Location selectors of the Meta card path, Meta.py lines 384 to 388. -/
def metaCardLocationSelectors : List String :=
  ["div[data-testid=\"job-location\"]", ".job-location", "div[class*=\"location\"]"]

/-- Team selectors of the Meta card path, Meta.py lines 402 to 406. -/
def metaCardTeamSelectors : List String :=
  ["div[data-testid=\"job-team\"]", ".job-team", "div[class*=\"team\"]"]

/-- Longest digit run at the head of a character list, with the remainder. -/
def takeDigits : List Char → List Char × List Char
  | [] => ([], [])
  | c :: cs =>
    if c.isDigit then
      let r := takeDigits cs
      (c :: r.1, r.2)
    else ([], c :: cs)

/-- Attempt to match the pattern of re.search at the head of the list:
the literal /jobs/, then one or more digits (the captured group), then /. -/
def matchJobsAt (cs : List Char) : Option String :=
  if cs.take 6 = "/jobs/".toList then
    let r := takeDigits (cs.drop 6)
    if r.1 ≠ [] ∧ r.2.head? = some '/' then some (String.mk r.1) else none
  else none

def searchJobsId : List Char → Option String
  | [] => none
  | c :: cs =>
    match matchJobsAt (c :: cs) with
    | some d => some d
    | none => searchJobsId cs

/-- Model of re.search applied at Meta.py line 358 with group(1) extraction:
first occurrence of /jobs/ followed by digits followed by /. -/
def findJobsIdNum (s : String) : Option String := searchJobsId s.toList

def metaDomain : String := "https://www.metacareers.com"

/-- Card URL discovery, Meta.py lines 341 to 349: the card href, else the href
of a nested anchor, else the card is skipped. -/
def metaCardUrl (c : MetaCard) : Option String :=
  match c.href with
  | some u => some u
  | none => c.innerHref

/-- Domain prefixing of a relative card URL, Meta.py lines 351 to 352. -/
def metaCardFinalUrl (u : String) : String :=
  if pyStartsWith u "http" then u else metaDomain ++ u

/-- Job id from the final URL, Meta.py lines 357 to 362: the regex captured
digits, else the last path segment, else the unknown sentinel. -/
def metaCardId (url : String) : String :=
  match findJobsIdNum url with
  | some d => d
  | none => if pyContainsChar url '/' then (pySplitOn url '/').getLastD "" else "unknown"

def metaCardBuild (c : MetaCard) (u : String) : Option MetaJob :=
  if metaCardId (metaCardFinalUrl u) ≠ "" ∧ metaCardFinalUrl u ≠ "" then
    some { url := metaCardFinalUrl u, id := metaCardId (metaCardFinalUrl u),
           title := (metaCardChain c.q metaCardTitleSelectors).getD "Unknown",
           location := (metaCardChain c.q metaCardLocationSelectors).getD "Unknown",
           team := (metaCardChain c.q metaCardTeamSelectors).getD "Unknown" }
  else none

/-- Field extraction for one Meta job card, Meta.py lines 334 to 425. -/
def extractMetaCard (c : MetaCard) : Option MetaJob :=
  match metaCardUrl c with
  | none => none
  | some u => metaCardBuild c u

/-- Detail-page chain of the Meta fallback path (Meta.py lines 274 to 280 for
the title; the location, team and description loops share the shape): the first
selector whose query succeeds ends the loop with the stripped text, with no
emptiness check before the break. The second component counts query
invocations. -/
def metaDetailChain (q : String → Option String) : List String → Option String × Nat
  | [] => (none, 0)
  | s :: rest =>
    match q s with
    | some u => (some (pyStrip u), 1)
    | none =>
      let r := metaDetailChain q rest
      (r.1, r.2 + 1)

/-- Title selectors of the Meta fallback detail page, Meta.py line 274. -/
def metaFbTitleSelectors : List String :=
  ["h1[data-testid=\"job-title\"]", "h1.job-title", "h1", "h2.job-title", "h2"]

/-- A candidate job link harvested from the page source, Meta.py lines 251 to
257: absolute URL and anchor text. -/
structure MetaLink where
  url : String
  title : String

/-- One record built by visiting a fallback job link, Meta.py lines 269 to 283
(the later optional location, team and description lookups do not affect these
fields). -/
structure MetaFbJob where
  url : String
  id : String
  title : String
deriving DecidableEq

/-- Processing of one visited fallback link, Meta.py lines 269 to 283: id from
the last URL segment (or the unknown sentinel when the URL has no slash), the
detail-page title chain, and the link-text-or-Unknown patch applied when the
title key is missing or falsy. -/
def processLink (link : MetaLink) (q : String → Option String) : MetaFbJob :=
  { url := link.url,
    id := if pyContainsChar link.url '/' then (pySplitOn link.url '/').getLastD "" else "unknown",
    title :=
      match (metaDetailChain q metaFbTitleSelectors).1 with
      | none => if link.title ≠ "" then link.title else "Unknown"
      | some t => if t = "" then (if link.title ≠ "" then link.title else "Unknown") else t }

def metaFallbackLimit : Nat := 50

/-- Last-resort fallback loop, Meta.py lines 262 to 318: visit at most the
first 50 candidate links (ok marks the links whose processing completes without
an exception) and collect one record per completed visit; the second component
counts the links visited. -/
def metaFallback (links : List MetaLink) (ok : MetaLink → Bool)
    (q : MetaLink → String → Option String) : List MetaFbJob × Nat :=
  (((links.take metaFallbackLimit).filter ok).map (fun l => processLink l (q l)),
   (links.take metaFallbackLimit).length)

/-- Meta card whose title chain misses on every selector but whose href is present. -/
def c2card : MetaCard :=
  { href := some "https://www.metacareers.com/jobs/123456/", innerHref := none,
    q := fun _ => none }

/-- The record the Meta card path emits for c2card. -/
def c2job : MetaJob :=
  { url := "https://www.metacareers.com/jobs/123456/", id := "123456",
    title := "Unknown", location := "Unknown", team := "Unknown" }

/-- Apple listing element on which every title selector misses. -/
def c2appleElem : JobElem :=
  { q := fun _ => none, href := some "https://jobs.apple.com/en-us/details/123",
    texts := [], err := false }

/-- Apple listing element with a usable title and nothing else. -/
def c2usable : JobElem :=
  { q := fun s => if s = "h3" then some " Engineer " else none,
    href := none, texts := [], err := false }

/-- Apple listing element with a usable title but no href attribute. -/
def c6elem : JobElem :=
  { q := fun s => if s = "h3" then some "Engineer" else none,
    href := none, texts := [], err := false }

/-- The record the Apple extractor emits for c6elem. -/
def c6job : AppleRaw :=
  { title := "Engineer", location := "N/A", team := "N/A", date := "N/A",
    id := "N/A", url := none }

/-- Oracle for the C7 counterexample: the first fallback title selector finds
an element whose text strips to empty; the second selector would yield a
usable title. -/
def c7q : String → Option String
  | "h1[data-testid=\"job-title\"]" => some "   "
  | _ => some "Engineer"

/-- Oracle for the C7 witness: only selector h1 finds an element. -/
def c7wq : String → Option String
  | "h1" => some "  x  "
  | _ => none

/-- The Job value constructed per record in Apple.get_jobs, Apple.py lines 172
to 180 (the team field of the page dictionary feeds the desc field). -/
structure JobRec where
  company : String
  title : String
  date : String
  desc : String
  id : String
  location : String
  url : Option String
deriving DecidableEq

def toJobRec (r : AppleRaw) : JobRec :=
  { company := "apple", title := r.title, date := r.date, desc := r.team,
    id := r.id, location := r.location, url := r.url }

/-- Page cap of Apple.get_jobs, Apple.py line 161. -/
def maxPages : Nat := 10

/-- The while loop of Apple.get_jobs, Apple.py lines 163 to 186: respond is
the observed result of parse_job_page per requested page number; fuel is the
number of page counter values left below the cap. Returns the accumulated
records and the list of pages for which parse_job_page was invoked (the page
loads). An empty page breaks before appending; a false next-page flag breaks
after appending; otherwise the counter advances. -/
def getJobsAux (respond : Nat → List AppleRaw × Bool) : Nat → Nat → List JobRec × List Nat
  | 0, _ => ([], [])
  | fuel + 1, page =>
    if (respond page).1.isEmpty then ([], [page])
    else if (respond page).2 = false then ((respond page).1.map toJobRec, [page])
    else
      ((respond page).1.map toJobRec ++ (getJobsAux respond fuel (page + 1)).1,
       page :: (getJobsAux respond fuel (page + 1)).2)

/-- Apple.get_jobs, starting at page 1 with the 10-page cap. -/
def getJobsRun (respond : Nat → List AppleRaw × Bool) : List JobRec × List Nat :=
  getJobsAux respond maxPages 1

/-- Whether the loop body of page p reaches the page increment (nonempty page
and next control present), Apple.py lines 167 and 182. -/
def continuesB (respond : Nat → List AppleRaw × Bool) (p : Nat) : Bool :=
  !(respond p).1.isEmpty && (respond p).2

/-- A fixture record for the C3 scenario. -/
def fixtureJob (s : String) : AppleRaw :=
  { title := "Job", location := "Loc", team := "Team", date := "Date",
    id := s, url := some "https://jobs.apple.com/en-us/search" }

/-- The C3 fixture site: pages 1 to 3 yield 5, 3 and 0 records, the next
control is present on every page. -/
def fixtureRespond (p : Nat) : List AppleRaw × Bool :=
  if p = 1 then
    ([fixtureJob "1", fixtureJob "2", fixtureJob "3", fixtureJob "4", fixtureJob "5"], true)
  else if p = 2 then ([fixtureJob "6", fixtureJob "7", fixtureJob "8"], true)
  else ([], true)

/-- Scroll-stabilization loop of Apple.py lines 64 to 71: last is the height
measured before the loop, the list holds the heights measured after each
scroll action in order. Returns the number of scroll actions performed when
the loop breaks (a measurement equal to the previous one), or none if the
supplied measurements run out before the loop ever breaks. -/
def scrollLoop : Nat → List Nat → Option Nat
  | _, [] => none
  | last, h :: t => if h = last then some 1 else (scrollLoop h t).map (fun n => n + 1)

def firstRepeatAux : Nat → Nat → List Nat → Option Nat
  | _, _, [] => none
  | pos, prev, h :: t => if h = prev then some pos else firstRepeatAux (pos + 1) h t

/-- One-based position of the first element equal to its immediate predecessor
in a height sequence. -/
def firstRepeat : List Nat → Option Nat
  | [] => none
  | h :: t => firstRepeatAux 2 h t

/-- Height sequence that grows on every measurement: n measurements starting at s. -/
def growingHeights : Nat → Nat → List Nat
  | 0, _ => []
  | n + 1, s => s :: growingHeights n (s + 1)

/-- The accessor state of the rendered Apple search page: probe visibility,
elements per listing-container selector, and the class attribute of the next
control per selector. -/
structure AppleEnv where
  ready : String → Bool
  listings : String → List JobElem
  nextClass : String → Option String

/-- Apple.py line 16. -/
def APPLE_JOBS_URL : String := "https://jobs.apple.com/en-us/search"

/-- The URL Apple.parse_job_page navigates to (Apple.py line 34): the fixed
search URL, whatever the page argument. -/
def appleNavUrl (_page : Nat) : String := APPLE_JOBS_URL

/-- Value computed by Apple.parse_job_page, Apple.py lines 19 to 139, given the
accessor responses collected in env: the readiness-probe chain (empty result
with no next page when every probe times out, line 61), the listing-container
chain, field extraction per listing element, and the next-control check. The
page parameter mirrors the Python signature and is unread in the body. The
scroll-stabilization loop of lines 64 to 71 only mutates the rendered page,
which env already reflects; its control behavior is modelled by scrollLoop. -/
def parseJobPage (_page : Nat) (env : AppleEnv) : List AppleRaw × Bool :=
  if (waitReady env.ready appleReadySelectors).1 = false then ([], false)
  else
    (((findListings env.listings appleListingSelectors).1).filterMap extractApple,
     (checkNextPage env.nextClass appleNextSelectors).1)

inductive AppleExit
  | setupFailure
  | navTimeout
  | pageError
  | normal

/-- Observable driver lifecycle of one Apple.parse_job_page call. -/
structure DriverTrace where
  created : Bool
  quitCalled : Bool
  jobs : List AppleRaw
  hasNext : Bool

/-- Exit-path behavior of Apple.parse_job_page, Apple.py lines 19 to 156: when
driver construction raises, the driver was never created and the finally
block's quit attempt hits an unbound name, swallowed by the inner except of
line 155; on every path after construction (navigation timeout at line 141,
page-level failure at line 144, normal return at line 139) the finally block
of lines 152 to 156 calls driver.quit() before the function returns. -/
def appleParseRun (ev : AppleExit) (page : Nat) (env : AppleEnv) : DriverTrace :=
  match ev with
  | .setupFailure => { created := false, quitCalled := false, jobs := [], hasNext := false }
  | .navTimeout => { created := true, quitCalled := true, jobs := [], hasNext := false }
  | .pageError => { created := true, quitCalled := true, jobs := [], hasNext := false }
  | .normal =>
    { created := true, quitCalled := true,
      jobs := (parseJobPage page env).1, hasNext := (parseJobPage page env).2 }

inductive MetaExit
  | setupFailure
  | bodyError
  | normal

/-- Observable driver lifecycle of one scrape_meta_jobs call. -/
structure MetaTrace where
  created : Bool
  quitCalled : Bool
  jobs : List MetaJob

/-- Exit-path behavior of scrape_meta_jobs, Meta.py lines 142 to 474: driver
starts as None, so if setup_driver raises, the except of line 468 returns the
empty list and the finally of line 471 skips quit; after construction both the
body-error path (return at line 470) and the normal return pass through that
finally, which quits the driver. -/
def metaCrawlRun (ev : MetaExit) (body : List MetaJob) : MetaTrace :=
  match ev with
  | .setupFailure => { created := false, quitCalled := false, jobs := [] }
  | .bodyError => { created := true, quitCalled := true, jobs := [] }
  | .normal => { created := true, quitCalled := true, jobs := body }

/-- Accessor state with no visible elements at all. -/
def emptyAppleEnv : AppleEnv :=
  { ready := fun _ => false, listings := fun _ => [], nextClass := fun _ => none }

theorem waitReady_shortCircuit (probe : String → Bool) (s : String) (post : List String) :
    ∀ pre : List String, (∀ x ∈ pre, probe x = false) → probe s = true →
      waitReady probe (pre ++ s :: post) = (true, pre.length + 1) := by
  intro pre
  induction pre with
  | nil => intro _ hs; simp [waitReady, hs]
  | cons x xs ih =>
    intro h hs
    have hx : probe x = false := h x (List.mem_cons_self x xs)
    have hrest := ih (fun y hy => h y (List.mem_cons_of_mem x hy)) hs
    simp [waitReady, hx, hrest]

theorem findListings_shortCircuit (q : String → List JobElem) (s : String) (post : List String) :
    ∀ pre : List String, (∀ x ∈ pre, (q x).isEmpty = true) → (q s).isEmpty = false →
      findListings q (pre ++ s :: post) = (q s, pre.length + 1) := by
  intro pre
  induction pre with
  | nil => intro _ hs; simp [findListings, hs]
  | cons x xs ih =>
    intro h hs
    have hx : (q x).isEmpty = true := h x (List.mem_cons_self x xs)
    have hrest := ih (fun y hy => h y (List.mem_cons_of_mem x hy)) hs
    simp [findListings, hx, hrest]

theorem resolveTitle_shortCircuit (q : String → Option String) (s : String) (post : List String)
    (u : String) :
    ∀ (pre : List String) (acc : Option String),
      (∀ x ∈ pre, ∀ v, q x = some v → pyStrip v = "") →
      q s = some u → pyStrip u ≠ "" →
      resolveTitle q (pre ++ s :: post) acc = (some (pyStrip u), pre.length + 1) := by
  intro pre
  induction pre with
  | nil =>
    intro acc _ hs hu
    simp [resolveTitle, hs, hu]
  | cons x xs ih =>
    intro acc h hs hu
    have hrest := fun a => ih a (fun y hy v hv => h y (List.mem_cons_of_mem x hy) v hv) hs hu
    cases hx : q x with
    | none => simp [resolveTitle, hx, hrest]
    | some v =>
      have hv : pyStrip v = "" := h x (List.mem_cons_self x xs) v hx
      simp [resolveTitle, hx, hv, hrest]

theorem checkNextPage_shortCircuit (q : String → Option String) (s : String) (post : List String)
    (cls : String) :
    ∀ pre : List String, (∀ x ∈ pre, q x = none) → q s = some cls →
      checkNextPage q (pre ++ s :: post) =
        (!((pySplitWs cls).contains "disabled"), pre.length + 1) := by
  intro pre
  induction pre with
  | nil => intro _ hs; simp [checkNextPage, hs]
  | cons x xs ih =>
    intro h hs
    have hx : q x = none := h x (List.mem_cons_self x xs)
    have hrest := ih (fun y hy => h y (List.mem_cons_of_mem x hy)) hs
    simp [checkNextPage, hx, hrest]

/-- C1: every selector chain of the crawler (readiness probes, listing-container
chain, per-field title chain, next-control chain) is short-circuiting: when the
first `pre.length` selectors are unusable and selector `s` at position
`pre.length` yields a usable result, exactly `pre.length + 1` selectors are
queried (nothing after `s` is evaluated) and the returned value is the one
extracted by `s`. -/
theorem C1_selector_chains_short_circuit
    (probe : String → Bool) (ql : String → List JobElem)
    (qt qn : String → Option String) (pre post : List String) (s : String) :
    ((∀ x ∈ pre, probe x = false) → probe s = true →
      waitReady probe (pre ++ s :: post) = (true, pre.length + 1))
  ∧ ((∀ x ∈ pre, (ql x).isEmpty = true) → (ql s).isEmpty = false →
      findListings ql (pre ++ s :: post) = (ql s, pre.length + 1))
  ∧ (∀ (acc : Option String) (u : String),
      (∀ x ∈ pre, ∀ v, qt x = some v → pyStrip v = "") →
      qt s = some u → pyStrip u ≠ "" →
      resolveTitle qt (pre ++ s :: post) acc = (some (pyStrip u), pre.length + 1))
  ∧ (∀ cls : String, (∀ x ∈ pre, qn x = none) → qn s = some cls →
      checkNextPage qn (pre ++ s :: post) =
        (!((pySplitWs cls).contains "disabled"), pre.length + 1)) :=
  ⟨fun h hs => waitReady_shortCircuit probe s post pre h hs,
   fun h hs => findListings_shortCircuit ql s post pre h hs,
   fun acc u h hs hu => resolveTitle_shortCircuit qt s post u pre acc h hs hu,
   fun cls h hs => checkNextPage_shortCircuit qn s post cls pre h hs⟩

theorem dropWhile_head_false {α : Type} (p : α → Bool) :
    ∀ (l : List α) (a : α) (as : List α), l.dropWhile p = a :: as → p a = false := by
  intro l
  induction l with
  | nil => intro a as h; simp [List.dropWhile] at h
  | cons c cs ih =>
    intro a as h
    cases hc : p c with
    | true =>
      rw [List.dropWhile_cons, if_pos (by simp [hc])] at h
      exact ih a as h
    | false =>
      rw [List.dropWhile_cons, if_neg (by simp [hc])] at h
      cases h
      exact hc

theorem pyStrip_not_space (u : String) (h : pyStrip u ≠ "") :
    pyIsSpaceStr (pyStrip u) = false := by
  unfold pyStrip at h ⊢
  cases hB : (u.toList.dropWhile Char.isWhitespace).reverse.dropWhile Char.isWhitespace with
  | nil => exact absurd (by rw [hB]; rfl) h
  | cons b bs =>
    have hb : Char.isWhitespace b = false := dropWhile_head_false _ _ b bs hB
    show (!((b :: bs).reverse.isEmpty) && (b :: bs).reverse.all Char.isWhitespace) = false
    rw [List.all_reverse]
    simp [hb]

theorem resolveTitle_result_strip (q : String → Option String) :
    ∀ (chain : List String) (acc : Option String), (acc = none ∨ acc = some "") →
      ∀ t, (resolveTitle q chain acc).1 = some t → t ≠ "" → ∃ u, t = pyStrip u := by
  intro chain
  induction chain with
  | nil =>
    intro acc hacc t ht hne
    simp only [resolveTitle] at ht
    cases hacc with
    | inl h0 => rw [h0] at ht; exact absurd ht (by simp)
    | inr h0 =>
      rw [h0, Option.some.injEq] at ht
      exact absurd ht.symm hne
  | cons s rest ih =>
    intro acc hacc t ht hne
    cases hq : q s with
    | none =>
      simp only [resolveTitle, hq] at ht
      exact ih acc hacc t ht hne
    | some u =>
      by_cases hu : pyStrip u = ""
      · simp only [resolveTitle, hq, hu, if_pos] at ht
        exact ih (some "") (Or.inr rfl) t ht hne
      · simp only [resolveTitle, hq, if_neg hu] at ht
        rw [Option.some.injEq] at ht
        exact ⟨u, ht.symm⟩

theorem resolveTitle_notFound (q : String → Option String) :
    ∀ (chain : List String) (acc : Option String), notFoundR acc = true →
      (notFoundR (resolveTitle q chain acc).1 = true ↔
        ∀ s ∈ chain, ∀ u, q s = some u → pyStrip u = "") := by
  intro chain
  induction chain with
  | nil => intro acc hacc; simp [resolveTitle, hacc]
  | cons s rest ih =>
    intro acc hacc
    rw [List.forall_mem_cons]
    cases hq : q s with
    | none =>
      simp only [resolveTitle, hq]
      rw [ih acc hacc]
      simp [hq]
    | some u =>
      by_cases hu : pyStrip u = ""
      · simp only [resolveTitle, hq, hu, if_pos]
        rw [ih (some "") (by simp [notFoundR])]
        simp [hu]
      · simp only [resolveTitle, hq, if_neg hu]
        constructor
        · intro habs
          simp [notFoundR] at habs
          exact absurd habs hu
        · intro hall
          exact absurd (hall.1 u rfl) hu

theorem getD_filter_ne_empty (l : List String) (i : Nat) :
    (l.filter (fun x => x ≠ "")).getD i "N/A" ≠ "" := by
  rw [List.getD_eq_getElem?_getD]
  cases h : (l.filter (fun x => x ≠ ""))[i]? with
  | none => simp
  | some v =>
    have hv := List.of_mem_filter (List.getElem?_mem h)
    simp only [decide_eq_true_eq] at hv
    simpa using hv

theorem C1_witness :
    waitReady w1probe ["a", "b", "c"] = (true, 2)
  ∧ findListings w1ql ["a", "b", "c"] = (w1ql "b", 2)
  ∧ resolveTitle w1qt ["a", "b", "c"] none = (some (pyStrip " Engineer "), 2)
  ∧ checkNextPage w1qn ["a", "b", "c"] = (!((pySplitWs "next disabled").contains "disabled"), 2) := by
  have h := C1_selector_chains_short_circuit w1probe w1ql w1qt w1qn ["a"] ["c"] "b"
  refine ⟨h.1 (by decide) rfl, h.2.1 ?_ rfl, ?_, h.2.2.2 "next disabled" ?_ rfl⟩
  · intro x hx
    simp only [List.mem_singleton] at hx
    subst hx
    rfl
  · refine h.2.2.1 none " Engineer " ?_ rfl (by decide)
    intro x hx v hv
    simp only [List.mem_singleton] at hx
    subst hx
    exact Option.noConfusion hv
  · intro x hx
    simp only [List.mem_singleton] at hx
    subst hx
    rfl

theorem metaCardChain_some_ne (q : String → Option String) :
    ∀ (chain : List String) (t : String), metaCardChain q chain = some t → t ≠ "" := by
  intro chain
  induction chain with
  | nil => intro t ht; simp [metaCardChain] at ht
  | cons s rest ih =>
    intro t ht
    cases hq : q s with
    | none =>
      simp only [metaCardChain, hq] at ht
      exact ih t ht
    | some u =>
      by_cases hu : pyStrip u = ""
      · simp only [metaCardChain, hq, hu, if_pos] at ht
        exact ih t ht
      · simp only [metaCardChain, hq, if_neg hu] at ht
        rw [Option.some.injEq] at ht
        exact ht ▸ hu

theorem metaCardChain_none (q : String → Option String) :
    ∀ chain : List String, (metaCardChain q chain = none ↔
      ∀ s ∈ chain, ∀ u, q s = some u → pyStrip u = "") := by
  intro chain
  induction chain with
  | nil => simp [metaCardChain]
  | cons s rest ih =>
    rw [List.forall_mem_cons]
    cases hq : q s with
    | none =>
      simp only [metaCardChain, hq]
      rw [ih]
      simp [hq]
    | some u =>
      by_cases hu : pyStrip u = ""
      · simp only [metaCardChain, hq, hu, if_pos]
        rw [ih]
        simp [hu]
      · simp only [metaCardChain, hq, if_neg hu]
        constructor
        · intro habs; exact absurd habs (by simp)
        · intro hall; exact absurd (hall.1 u rfl) hu

theorem metaCardChain_getD_ne (q : String → Option String) (chain : List String) :
    (metaCardChain q chain).getD "Unknown" ≠ "" := by
  cases hch : metaCardChain q chain with
  | none => simp
  | some t => simpa using metaCardChain_some_ne q chain t hch

theorem extractMetaCard_some_url (c : MetaCard) (u : String) (h : metaCardUrl c = some u) :
    extractMetaCard c = metaCardBuild c u := by
  unfold extractMetaCard
  rw [h]

theorem extractApple_some_title (e : JobElem) (t : String) (he : e.err = false)
    (h : (resolveTitle e.q appleTitleSelectors none).1 = some t) :
    extractApple e =
      (if t = "" then none
       else if t ≠ "" ∧ pyIsSpaceStr t = false then
         some { title := t, location := (appleTexts e).getD 1 "N/A",
                team := (appleTexts e).getD 0 "N/A", date := (appleTexts e).getD 2 "N/A",
                id := appleJobId e.href, url := e.href }
       else none) := by
  unfold extractApple
  rw [he, h]
  rfl

/-- C2 counterexample: a Meta listing card whose title chain resolves to
NOT_FOUND is not skipped; the card path emits a record with the sentinel title,
so there the absence of a title does not invalidate the record. -/
theorem C2_counterexample :
    metaCardChain c2card.q metaCardTitleSelectors = none ∧
    extractMetaCard c2card = some c2job := by
  constructor
  · rfl
  · decide

/-- C2 (amended): on the Apple crawler a listing element whose title chain
resolves to NOT_FOUND is skipped (no record), and a usable title suffices for
a record whatever every other field holds, so there title is the only field
whose absence invalidates the element; on the Meta card path a NOT_FOUND title
does not skip the element — the record is kept with the sentinel title, and it
is a missing URL that skips a card. -/
theorem C2_title_skip_policy :
    (∀ e : JobElem, notFoundR (resolveTitle e.q appleTitleSelectors none).1 = true →
      extractApple e = none)
  ∧ (∀ e : JobElem, e.err = false →
      notFoundR (resolveTitle e.q appleTitleSelectors none).1 = false →
      (extractApple e).isSome = true)
  ∧ (∀ c : MetaCard, metaCardUrl c = none → extractMetaCard c = none)
  ∧ (∀ (c : MetaCard) (j : MetaJob), extractMetaCard c = some j →
      metaCardChain c.q metaCardTitleSelectors = none → j.title = "Unknown") := by
  refine ⟨?_, ?_, ?_, ?_⟩
  · intro e h
    unfold extractApple
    cases he : e.err with
    | true => simp [he]
    | false =>
      cases hres : (resolveTitle e.q appleTitleSelectors none).1 with
      | none => simp [he, hres]
      | some t =>
        rw [hres] at h
        simp [notFoundR] at h
        simp [he, hres, h]
  · intro e he h
    cases hres : (resolveTitle e.q appleTitleSelectors none).1 with
    | none => rw [hres] at h; simp [notFoundR] at h
    | some t =>
      rw [hres] at h
      simp [notFoundR] at h
      obtain ⟨u, hu⟩ :=
        resolveTitle_result_strip e.q appleTitleSelectors none (Or.inl rfl) t hres h
      have hsp : pyIsSpaceStr t = false := by
        rw [hu]
        exact pyStrip_not_space u (by rw [← hu]; exact h)
      simp [extractApple, he, hres, h, hsp]
  · intro c h
    simp [extractMetaCard, h]
  · intro c j hj hch
    cases hcu : metaCardUrl c with
    | none =>
      unfold extractMetaCard at hj
      rw [hcu] at hj
      exact absurd hj (by simp)
    | some u =>
      rw [extractMetaCard_some_url c u hcu] at hj
      unfold metaCardBuild at hj
      split at hj
      · rw [Option.some.injEq] at hj
        rw [← hj]
        simp [hch]
      · exact absurd hj (by simp)

theorem C2_witness :
    extractApple c2appleElem = none ∧ (extractApple c2usable).isSome = true :=
  ⟨C2_title_skip_policy.1 c2appleElem (by decide),
   C2_title_skip_policy.2.1 c2usable rfl (by decide)⟩

/-- C6 counterexample: the Apple extractor emits a record whose url is null and
whose id is only the sentinel when the element has a usable title but no href,
contradicting the claim that every emitted record has a present id and url. -/
theorem C6_counterexample :
    extractApple c6elem = some c6job ∧ c6job.url = none := by
  constructor
  · decide
  · rfl

/-- C6 (amended): every record the Apple extractor emits has a nonempty title,
team, location and date (the sentinel is substituted for unresolved fields),
but the presence of id and url is not guaranteed: the url is exactly the
element's href, which may be absent, in which case the id is only the
sentinel; on the Meta card path every emitted record does have a nonempty id,
url, title, location and team. -/
theorem C6_record_fields :
    (∀ (e : JobElem) (j : AppleRaw), extractApple e = some j →
      j.title ≠ "" ∧ j.team ≠ "" ∧ j.location ≠ "" ∧ j.date ≠ "" ∧
      j.url = e.href ∧ (e.href = none → j.id = "N/A"))
  ∧ (∀ (c : MetaCard) (j : MetaJob), extractMetaCard c = some j →
      j.id ≠ "" ∧ j.url ≠ "" ∧ j.title ≠ "" ∧ j.location ≠ "" ∧ j.team ≠ "") := by
  constructor
  · intro e j hj
    cases he : e.err with
    | true => unfold extractApple at hj; rw [he] at hj; simp at hj
    | false =>
      cases hres : (resolveTitle e.q appleTitleSelectors none).1 with
      | none =>
        unfold extractApple at hj
        rw [he, hres] at hj
        simp at hj
      | some t =>
        rw [extractApple_some_title e t he hres] at hj
        by_cases ht : t = ""
        · rw [if_pos ht] at hj
          exact absurd hj (by simp)
        · rw [if_neg ht] at hj
          by_cases hsp : pyIsSpaceStr t = false
          · rw [if_pos ⟨ht, hsp⟩] at hj
            rw [Option.some.injEq] at hj
            rw [← hj]
            refine ⟨ht, getD_filter_ne_empty (e.texts.map pyStrip) 0,
                    getD_filter_ne_empty (e.texts.map pyStrip) 1,
                    getD_filter_ne_empty (e.texts.map pyStrip) 2, rfl, ?_⟩
            intro hnone
            simp [appleJobId, hnone]
          · rw [if_neg (fun hc => hsp hc.2)] at hj
            exact absurd hj (by simp)
  · intro c j hj
    cases hcu : metaCardUrl c with
    | none =>
      unfold extractMetaCard at hj
      rw [hcu] at hj
      exact absurd hj (by simp)
    | some u =>
      rw [extractMetaCard_some_url c u hcu] at hj
      unfold metaCardBuild at hj
      split at hj
      · rename_i hcond
        rw [Option.some.injEq] at hj
        rw [← hj]
        exact ⟨hcond.1, hcond.2, metaCardChain_getD_ne c.q metaCardTitleSelectors,
               metaCardChain_getD_ne c.q metaCardLocationSelectors,
               metaCardChain_getD_ne c.q metaCardTeamSelectors⟩
      · exact absurd hj (by simp)

theorem C6_witness :
    c6job.title ≠ "" ∧ c6job.team ≠ "" ∧ c6job.id = "N/A" := by
  have h := C6_record_fields.1 c6elem c6job (by decide)
  exact ⟨h.1, h.2.1, h.2.2.2.2.2 rfl⟩

/-- C7 counterexample: in the Meta detail-page title chain, a selector whose
element is found but whose stripped text is empty ends the chain: only one
selector is evaluated and the empty value is returned, even though the next
selector would have produced a usable title. -/
theorem C7_counterexample :
    metaDetailChain c7q metaFbTitleSelectors = (some "", 1) ∧
    c7q "h1.job-title" = some "Engineer" := by
  constructor
  · decide
  · rfl

/-- C7 (amended): in the Apple title chain and the Meta card-path chains a
present-but-empty element is a miss — the chain continues, and NOT_FOUND is
returned exactly when every selector misses, throws or strips to empty; in
the Meta detail-page chains, however, the first selector whose element is
found ends the chain even when its stripped text is empty. -/
theorem C7_empty_value_policy :
    (∀ (q : String → Option String) (chain : List String),
      (notFoundR (resolveTitle q chain none).1 = true ↔
        ∀ s ∈ chain, ∀ u, q s = some u → pyStrip u = ""))
  ∧ (∀ (q : String → Option String) (chain : List String),
      (metaCardChain q chain = none ↔
        ∀ s ∈ chain, ∀ u, q s = some u → pyStrip u = ""))
  ∧ (∀ (q : String → Option String) (s : String) (rest : List String) (u : String),
      q s = some u → pyStrip u = "" →
      resolveTitle q (s :: rest) none =
        ((resolveTitle q rest (some "")).1, (resolveTitle q rest (some "")).2 + 1))
  ∧ (∀ (q : String → Option String) (s : String) (rest : List String) (u : String),
      q s = some u → metaDetailChain q (s :: rest) = (some (pyStrip u), 1)) := by
  refine ⟨fun q chain => resolveTitle_notFound q chain none rfl,
          fun q chain => metaCardChain_none q chain, ?_, ?_⟩
  · intro q s rest u hq hu
    simp [resolveTitle, hq, hu]
  · intro q s rest u hq
    simp [metaDetailChain, hq]

theorem C7_witness :
    metaDetailChain c7wq ["h1", "h2"] = (some (pyStrip "  x  "), 1) :=
  C7_empty_value_policy.2.2.2 c7wq "h1" ["h2"] "  x  " rfl

/-- C10: the Meta page-source fallback visits at most the first 50 candidate
job links and the record list it returns has length at most 50, however many
candidate links the page source contains. -/
theorem C10_fallback_limit (links : List MetaLink) (ok : MetaLink → Bool)
    (q : MetaLink → String → Option String) :
    (metaFallback links ok q).2 ≤ 50 ∧ (metaFallback links ok q).1.length ≤ 50 := by
  constructor
  · simp [metaFallback, metaFallbackLimit]
  · calc (((links.take metaFallbackLimit).filter ok).map
            (fun l => processLink l (q l))).length
        = ((links.take metaFallbackLimit).filter ok).length := by
          rw [List.length_map]
      _ ≤ (links.take metaFallbackLimit).length := List.length_filter_le _ _
      _ ≤ 50 := by simp [metaFallbackLimit]

theorem getJobsAux_pages_bounds (respond : Nat → List AppleRaw × Bool) :
    ∀ (fuel page q : Nat), q ∈ (getJobsAux respond fuel page).2 →
      page ≤ q ∧ q < page + fuel := by
  intro fuel
  induction fuel with
  | zero => intro page q h; simp [getJobsAux] at h
  | succ n ih =>
    intro page q h
    by_cases h1 : (respond page).1.isEmpty = true
    · simp [getJobsAux, h1] at h
      omega
    · by_cases h2 : (respond page).2 = false
      · simp [getJobsAux, h1, h2] at h
        omega
      · simp [getJobsAux, h1, h2] at h
        cases h with
        | inl h => omega
        | inr h =>
          have := ih (page + 1) q h
          omega

theorem getJobsAux_head_mem (respond : Nat → List AppleRaw × Bool) :
    ∀ (fuel page : Nat), 0 < fuel → page ∈ (getJobsAux respond fuel page).2 := by
  intro fuel page hf
  cases fuel with
  | zero => omega
  | succ n =>
    by_cases h1 : (respond page).1.isEmpty = true
    · simp [getJobsAux, h1]
    · by_cases h2 : (respond page).2 = false
      · simp [getJobsAux, h1, h2]
      · simp [getJobsAux, h1, h2]

theorem getJobsAux_cont (respond : Nat → List AppleRaw × Bool) (n page : Nat)
    (h1 : (respond page).1.isEmpty = false) (h2 : (respond page).2 = true) :
    getJobsAux respond (n + 1) page =
      ((respond page).1.map toJobRec ++ (getJobsAux respond n (page + 1)).1,
       page :: (getJobsAux respond n (page + 1)).2) := by
  simp [getJobsAux, h1, h2]

theorem getJobsAux_succ_mem (respond : Nat → List AppleRaw × Bool) :
    ∀ (fuel page q : Nat), page ≤ q →
      ((q + 1) ∈ (getJobsAux respond fuel page).2 ↔
        (q ∈ (getJobsAux respond fuel page).2 ∧ continuesB respond q = true ∧
         q + 1 < page + fuel)) := by
  intro fuel
  induction fuel with
  | zero =>
    intro page q hpq
    simp [getJobsAux]
  | succ n ih =>
    intro page q hpq
    by_cases h1 : (respond page).1.isEmpty = true
    · have hc : continuesB respond page = false := by simp [continuesB, h1]
      simp only [getJobsAux, h1, if_pos]
      simp only [List.mem_singleton]
      constructor
      · intro h; omega
      · rintro ⟨hq, hcont, _⟩
        subst hq
        rw [hc] at hcont
        cases hcont
    · by_cases h2 : (respond page).2 = false
      · have hc : continuesB respond page = false := by simp [continuesB, h2]
        have heq : getJobsAux respond (n + 1) page = ((respond page).1.map toJobRec, [page]) := by
          simp [getJobsAux, h1, h2]
        rw [heq]
        simp only [List.mem_singleton]
        constructor
        · intro h; omega
        · rintro ⟨hq, hcont, _⟩
          subst hq
          rw [hc] at hcont
          cases hcont
      · have h1f : (respond page).1.isEmpty = false := by
          revert h1; cases (respond page).1.isEmpty <;> simp
        have h2t : (respond page).2 = true := by
          revert h2; cases (respond page).2 <;> simp
        have hcB : continuesB respond page = true := by simp [continuesB, h1f, h2t]
        rw [getJobsAux_cont respond n page h1f h2t]
        rcases Nat.eq_or_lt_of_le hpq with heq | hlt
        · subst heq
          simp only [List.mem_cons]
          constructor
          · intro h
            rcases h with h | h
            · omega
            · have hb := getJobsAux_pages_bounds respond n (page + 1) (page + 1) h
              exact ⟨by simp, hcB, by omega⟩
          · rintro ⟨_, _, hlt2⟩
            exact Or.inr (getJobsAux_head_mem respond n (page + 1) (by omega))
        · have hq1 : page + 1 ≤ q := hlt
          have ihq := ih (page + 1) q hq1
          simp only [List.mem_cons]
          constructor
          · intro h
            rcases h with h | h
            · omega
            · rw [ihq] at h
              exact ⟨Or.inr h.1, h.2.1, by omega⟩
          · rintro ⟨hq, hcont, hlt2⟩
            rcases hq with hq | hq
            · omega
            · refine Or.inr ?_
              rw [ihq]
              exact ⟨hq, hcont, by omega⟩

/-- C3: in the Apple crawl loop, page p + 1 is loaded exactly when page p was
loaded, page p yielded at least one record, its next-page flag was true, and
the counter is below the maximum of 10 pages (a zero-record page ends
pagination even when a next control is present); on the fixture whose pages
yield 5, 3 and 0 records with the next control always present, exactly 8
records are returned and exactly pages 1, 2 and 3 are loaded, hence 2 page
loads after page 1. -/
theorem C3_pagination_policy (respond : Nat → List AppleRaw × Bool) (p : Nat) (hp : 1 ≤ p) :
    ((p + 1) ∈ (getJobsRun respond).2 ↔
      (p ∈ (getJobsRun respond).2 ∧ (respond p).1 ≠ [] ∧ (respond p).2 = true ∧
       p < maxPages))
  ∧ (getJobsRun fixtureRespond).1.length = 8
  ∧ (getJobsRun fixtureRespond).2 = [1, 2, 3] := by
  refine ⟨?_, by decide, by decide⟩
  have h := getJobsAux_succ_mem respond maxPages 1 p hp
  have hcont : continuesB respond p = true ↔ ((respond p).1 ≠ [] ∧ (respond p).2 = true) := by
    simp [continuesB]
  have hmp : maxPages = 10 := rfl
  unfold getJobsRun
  rw [h, hcont]
  constructor
  · rintro ⟨hm, ⟨ha, hb⟩, hlt⟩
    exact ⟨hm, ha, hb, by omega⟩
  · rintro ⟨hm, ha, hb, hlt⟩
    rw [hmp] at hlt
    exact ⟨hm, ⟨ha, hb⟩, by omega⟩

theorem C3_witness : (2 : Nat) ∈ (getJobsRun fixtureRespond).2 := by
  have h := (C3_pagination_policy fixtureRespond 1 (by decide)).1
  exact h.mpr ⟨by decide, by decide, by decide, by decide⟩

theorem firstRepeatAux_shift :
    ∀ (t : List Nat) (prev p : Nat),
      firstRepeatAux (p + 1) prev t = (firstRepeatAux p prev t).map (fun n => n + 1) := by
  intro t
  induction t with
  | nil => intro prev p; rfl
  | cons h t2 ih =>
    intro prev p
    by_cases hh : h = prev
    · simp [firstRepeatAux, hh]
    · simp [firstRepeatAux, hh, ih]

theorem firstRepeatAux_ge :
    ∀ (t : List Nat) (prev p n : Nat), firstRepeatAux p prev t = some n → p ≤ n := by
  intro t
  induction t with
  | nil => intro prev p n h; simp [firstRepeatAux] at h
  | cons h t2 ih =>
    intro prev p n hp
    by_cases hh : h = prev
    · simp [firstRepeatAux, hh] at hp
      omega
    · simp only [firstRepeatAux, hh, if_neg] at hp
      have := ih h (p + 1) n hp
      omega

theorem scrollLoop_of_firstRepeat :
    ∀ (t : List Nat) (prev n : Nat), firstRepeatAux 2 prev t = some n →
      scrollLoop prev t = some (n - 1) := by
  intro t
  induction t with
  | nil => intro prev n h; simp [firstRepeatAux] at h
  | cons h t2 ih =>
    intro prev n hp
    by_cases hh : h = prev
    · simp [firstRepeatAux, hh] at hp
      simp [scrollLoop, hh]
      omega
    · have hshift : firstRepeatAux 2 prev (h :: t2) = firstRepeatAux 3 h t2 := by
        simp [firstRepeatAux, hh]
      rw [hshift] at hp
      rw [show (3 : Nat) = 2 + 1 from rfl, firstRepeatAux_shift] at hp
      cases hm : firstRepeatAux 2 h t2 with
      | none => rw [hm] at hp; simp at hp
      | some m =>
        rw [hm] at hp
        simp at hp
        have hm2 := firstRepeatAux_ge t2 h 2 m hm
        have hs := ih h m hm
        simp [scrollLoop, hh, hs]
        omega

/-- C4: the scroll loop stops exactly at the first pair of equal consecutive
height measurements: if the first repeated consecutive value of the sequence
(initial measurement followed by the per-scroll measurements) sits at
one-based position n, exactly n - 1 scroll actions are performed; for the
heights 100, 250, 400, 400 that is exactly 3 scroll actions. -/
theorem C4_scroll_stabilization :
    (∀ (h0 : Nat) (rest : List Nat) (n : Nat),
      firstRepeat (h0 :: rest) = some n → scrollLoop h0 rest = some (n - 1))
  ∧ scrollLoop 100 [250, 400, 400] = some 3 := by
  refine ⟨?_, by decide⟩
  intro h0 rest n h
  exact scrollLoop_of_firstRepeat rest h0 n h

theorem C4_witness :
    firstRepeat [100, 250, 400, 400] = some 4 ∧ scrollLoop 100 [250, 400, 400] = some 3 :=
  ⟨by decide, C4_scroll_stabilization.1 100 [250, 400, 400] 4 (by decide)⟩

theorem scrollLoop_growing :
    ∀ (n s last : Nat), last < s → scrollLoop last (growingHeights n s) = none := by
  intro n
  induction n with
  | zero => intro s last _; rfl
  | succ m ih =>
    intro s last hl
    have hne : ¬ (s = last) := by omega
    simp [growingHeights, scrollLoop, hne, ih (s + 1) s (by omega)]

/-- C5 (documents the divergence): when the measured height grows on every
iteration (101, 102, 103, and so on), the scroll loop of Apple.py lines 64 to
71 never takes its break, however many iterations are observed: the code has
no iteration cap, so the hard cap and soft-failure behavior the claim
describes do not exist in the source. -/
theorem C5_no_iteration_cap (n : Nat) :
    scrollLoop 100 (growingHeights n 101) = none :=
  scrollLoop_growing n 101 100 (by omega)

/-- C8: on every exit path of either crawl (normal end, navigation timeout,
page-level failure, accessor setup failure), if the driver was created then
quit was invoked before the crawl function returned, and on the setup-failure
path it was never created. -/
theorem C8_driver_released (ev : AppleExit) (page : Nat) (env : AppleEnv)
    (mev : MetaExit) (body : List MetaJob) :
    ((appleParseRun ev page env).created = true → (appleParseRun ev page env).quitCalled = true)
  ∧ ((metaCrawlRun mev body).created = true → (metaCrawlRun mev body).quitCalled = true) := by
  cases ev <;> cases mev <;> simp [appleParseRun, metaCrawlRun]

theorem C8_witness :
    (appleParseRun AppleExit.navTimeout 1 emptyAppleEnv).quitCalled = true ∧
    (metaCrawlRun MetaExit.bodyError []).quitCalled = true :=
  ⟨(C8_driver_released AppleExit.navTimeout 1 emptyAppleEnv MetaExit.bodyError []).1 rfl,
   (C8_driver_released AppleExit.navTimeout 1 emptyAppleEnv MetaExit.bodyError []).2 rfl⟩

/-- C9: the page argument of Apple.parse_job_page has no influence on its
behavior: the navigation target is the fixed APPLE_JOBS_URL for every page
number, and with the same accessor responses the returned record list and
next-page flag are identical for any two page numbers, so the successive
iterations of get_jobs revisit the same page instead of advancing. -/
theorem C9_page_argument_unused (p q : Nat) (env : AppleEnv) :
    parseJobPage p env = parseJobPage q env ∧
    appleNavUrl p = appleNavUrl q ∧ appleNavUrl p = APPLE_JOBS_URL :=
  ⟨rfl, rfl, rfl⟩
